import Mathlib

/-!
Verification of the job-lifecycle core and the surrounding routes of the
Hackathon-Aug-25-Team5 repository, as a shallow embedding in Lean 4.

The persisted schema (the `job_status` enum and the `jobs` table) is
embedded from the SQL DDL found in the repository.  The web handlers
(sign-in POST, upload-page file guard) are embedded from their
TypeScript sources.  The JobService lifecycle operations themselves are
modelled from the specification, since the Python implementation file is
not part of the repository snapshot (only its README, schema and testing
guide are).
-/

/-! ## Persisted schema, embedded from the SQL DDL -/

/-- The values of the persisted `job_status` enum, exactly as declared by
`CREATE TYPE job_status AS ENUM (...)` in the repository's schema
documentation (README, Database Schema section). -/
def job_status_enum : List String := ["scheduled", "in_progress", "done", "failed"]

/-- One column of a SQL table: its name, SQL type, whether it carries a
NOT NULL constraint, and its DEFAULT expression when it has one. -/
structure ColumnDef where
  name : String
  sqlType : String
  notNull : Bool
  column_default : Option String
deriving DecidableEq, Repr

/-- The columns of the `jobs` table, embedded from `create table jobs (...)`
in the repository's schema file. -/
def jobs_table : List ColumnDef :=
  [⟨"job_id", "uuid", true, some "gen_random_uuid()"⟩,
   ⟨"document_id", "uuid", false, none⟩,
   ⟨"job_type", "varchar(50)", true, none⟩,
   ⟨"status", "job_status", false, some "scheduled"⟩,
   ⟨"created_at", "timestamp", false, some "CURRENT_TIMESTAMP"⟩,
   ⟨"started_at", "timestamp", false, none⟩,
   ⟨"finished_at", "timestamp", false, none⟩,
   ⟨"result", "jsonb", false, some "\x7b\x7d"⟩,
   ⟨"error_message", "text", false, none⟩,
   ⟨"property_id", "uuid", false, none⟩]

/-- Look up a column of the `jobs` table by name. -/
def jobs_column (n : String) : Option ColumnDef :=
  jobs_table.find? (fun c => c.name == n)

/-! ## Sign-in route, embedded from the Next.js POST handler -/

/-- A user row as the sign-in handler reads it from the database. -/
structure AuthUser where
  id : Nat
  email : String
  fullName : String
  roleId : Option Nat
  passwordHash : String
deriving DecidableEq, Repr

/-- The JSON body of a sign-in response: either an error object or the
user-plus-token object the success path returns. -/
inductive SigninBody
  | err (msg : String)
  | success (userId : Nat) (email fullName : String) (roleId : Option Nat) (token : String)
deriving DecidableEq, Repr

/-- An HTTP response as `NextResponse.json` produces it: a status code
and a JSON body. -/
structure HttpResponse where
  status : Nat
  body : SigninBody
deriving DecidableEq, Repr

/-- The sign-in POST handler.  `findUserByEmail` stands for
`prisma.user.findUnique`, `bcryptCompare` for `bcrypt.compare`, and
`jwtSign` for `jwt.sign`; the control flow is the handler's own:
no user gives 401, a failed password comparison gives 401 with the same
body, and only the success path differs. -/
def signinPOST (findUserByEmail : String → Option AuthUser)
    (bcryptCompare : String → String → Bool)
    (jwtSign : Nat → String → String → String)
    (email password : String) : HttpResponse :=
  match findUserByEmail email with
  | none => ⟨401, .err "Invalid email or password"⟩
  | some user =>
    if bcryptCompare password user.passwordHash then
      ⟨200, .success user.id user.email user.fullName user.roleId
        (jwtSign user.id user.email user.fullName)⟩
    else
      ⟨401, .err "Invalid email or password"⟩

/-! ## Upload-page file guard, embedded from handleFileUpload -/

/-- A browser `File` as the upload page reads it: `name`, the MIME type
(`file.type` in the source; `type` is reserved in Lean), and `size` in
bytes. -/
structure BrowserFile where
  name : String
  ftype : String
  size : Nat
deriving DecidableEq, Repr

/-- JavaScript's `String.prototype.includes`: the argument occurs as a
contiguous substring. -/
def jsIncludes (s sub : String) : Bool := decide (sub.toList <:+: s.toList)

/-- The upload page's `handleFileUpload`: returns the file passed to
`uploadFile` when an upload request is issued, and `none` when the
function returns early (no file, non-PDF MIME type, or size above
50 * 1024 * 1024 bytes). -/
def handleFileUpload (files : Option (List BrowserFile)) : Option BrowserFile :=
  match files with
  | none => none
  | some [] => none
  | some (file :: _) =>
    if ¬ (jsIncludes file.ftype "pdf") then none
    else if file.size > 50 * 1024 * 1024 then none
    else some file

/-! ## Job lifecycle core, modelled from the specification

The Python implementation (`app/core/job_service.py`) is absent from the
repository snapshot; only its README, the SQL schema and the testing
guide are present.  The definitions below are therefore modelled from
the specification's words (sections 3, 4.2, 4.4, 4.5), with time as a
`Nat` passed in for "now" and the JSON payload as a finite mapping. -/

/-- A structured JSON payload, as a finite mapping from keys to integers
(enough for the payloads the spec's examples use, e.g. pages counts). -/
abbrev JsonMap := List (String × Int)

/-- Modelled from the spec: the five status values of section 3 (the
in-repository persisted enum has only four; the model follows the spec's
words, which is exactly what claim C1 compares against the schema). -/
inductive JobStatus
  | scheduled
  | in_progress
  | done
  | failed
  | cancelled
deriving DecidableEq, Repr

/-- A status is terminal when it is done, failed or cancelled. -/
def isTerminal : JobStatus → Bool
  | .done => true
  | .failed => true
  | .cancelled => true
  | _ => false

/-- Modelled from the spec: the Job record of section 3 / section 6
(association identifiers are `document_id` and `property_id`, as in the
schema; timestamps are `Nat`). -/
structure Job where
  job_id : Nat
  job_type : String
  document_id : Option Nat
  property_id : Option Nat
  status : JobStatus
  created_at : Nat
  started_at : Option Nat
  finished_at : Option Nat
  result : JsonMap
  error_message : Option String
deriving DecidableEq, Repr

/-- Modelled from the spec: the error taxonomy of section 7. -/
inductive JobError
  | NotFoundError
  | InvalidTransitionError
  | DuplicateSubmissionError
  | PersistenceError
deriving DecidableEq, Repr

/-- The durable store together with the id generator: a keyed list of job
rows and the next fresh `job_id`. -/
structure ServiceState where
  jobs : List (Nat × Job)
  next_id : Nat
deriving DecidableEq, Repr

/-- The state a freshly constructed service starts from: no jobs. -/
def initState : ServiceState := ⟨[], 0⟩

/-- Look a job up in the keyed row list (first row with the key wins). -/
def lookupJob : List (Nat × Job) → Nat → Option Job
  | [], _ => none
  | (k, v) :: rest, id => if k = id then some v else lookupJob rest id

/-- Replace every row keyed `id` by the supplied job (an atomic
single-row write; keys are unique in every reachable state). -/
def updJobs : List (Nat × Job) → Nat → Job → List (Nat × Job)
  | [], _, _ => []
  | (k, v) :: rest, id, j =>
    if k = id then (k, j) :: updJobs rest id j else (k, v) :: updJobs rest id j

/-- Read a job record by id (`JobStore.get` / `JobService.get_job`). -/
def findJob (s : ServiceState) (id : Nat) : Option Job := lookupJob s.jobs id

/-- Write a job record back under its id. -/
def putJob (s : ServiceState) (id : Nat) (j : Job) : ServiceState :=
  ⟨updJobs s.jobs id j, s.next_id⟩

/-- Modelled from the spec: the JobStateMachine of section 4.2.
`scheduled → in_progress → {done, failed}`; `scheduled`/`in_progress`
`→ cancelled`; and `fail_job` is permitted from `scheduled` (section 4.4,
with section 9 noting the spec permits it). -/
def canTransition : JobStatus → JobStatus → Bool
  | .scheduled, .in_progress => true
  | .in_progress, .done => true
  | .scheduled, .failed => true
  | .in_progress, .failed => true
  | .scheduled, .cancelled => true
  | .in_progress, .cancelled => true
  | _, _ => false

/-- Modelled from the spec: `create_job` (sections 4.1/4.4) inserts a new
row with a fresh id, status `scheduled`, `created_at` = now, `result` =
initial_data or empty, the timestamps and error message null. -/
def create_job (s : ServiceState) (job_type : String)
    (document_id property_id : Option Nat) (initial_data : Option JsonMap)
    (now : Nat) : ServiceState × Job :=
  let j : Job :=
    { job_id := s.next_id, job_type := job_type, document_id := document_id,
      property_id := property_id, status := .scheduled, created_at := now,
      started_at := none, finished_at := none,
      result := initial_data.getD [], error_message := none }
  (⟨(s.next_id, j) :: s.jobs, s.next_id + 1⟩, j)

/-- Modelled from the spec: `start_job` requires the current status to
admit the transition to `in_progress` (i.e. `scheduled`); it sets
`started_at` = now and status `in_progress`, and performs the
state-machine check before any store mutation. -/
def start_job (s : ServiceState) (id now : Nat) : Except JobError ServiceState :=
  match findJob s id with
  | none => .error .NotFoundError
  | some j =>
    if canTransition j.status .in_progress then
      .ok (putJob s id { j with status := .in_progress, started_at := some now })
    else .error .InvalidTransitionError

/-- Modelled from the spec: `complete_job` requires `in_progress`; it sets
`finished_at` = now, status `done` and writes the result. -/
def complete_job (s : ServiceState) (id : Nat) (result : JsonMap)
    (now : Nat) : Except JobError ServiceState :=
  match findJob s id with
  | none => .error .NotFoundError
  | some j =>
    if canTransition j.status .done then
      .ok (putJob s id { j with status := .done, finished_at := some now, result := result })
    else .error .InvalidTransitionError

/-- Modelled from the spec: `fail_job` is allowed from `scheduled` or
`in_progress`; it sets `finished_at` = now, status `failed` and records
the error message. -/
def fail_job (s : ServiceState) (id : Nat) (msg : String)
    (now : Nat) : Except JobError ServiceState :=
  match findJob s id with
  | none => .error .NotFoundError
  | some j =>
    if canTransition j.status .failed then
      .ok (putJob s id { j with status := .failed, finished_at := some now,
                                error_message := some msg })
    else .error .InvalidTransitionError

/-- The standard message `cancel_job` records (the spec fixes no exact
text, only that a standard message is written). -/
def standardCancelMessage : String := "Job cancelled"

/-- Modelled from the spec: `cancel_job` delegates to
`ExecutionCoordinator.cancel`, whose outcome is the
`coordinatorCancelled` argument here (the coordinator is outside the
store).  On false it leaves the store untouched and returns false; on
true it additionally transitions the job to `cancelled` with the
standard message (the state-machine check preceding the write). -/
def cancel_job (s : ServiceState) (id : Nat) (coordinatorCancelled : Bool)
    (now : Nat) : Except JobError (ServiceState × Bool) :=
  if coordinatorCancelled then
    match findJob s id with
    | none => .error .NotFoundError
    | some j =>
      if canTransition j.status .cancelled then
        .ok (putJob s id { j with status := .cancelled, finished_at := some now,
                                  error_message := some standardCancelMessage }, true)
      else .error .InvalidTransitionError
  else .ok (s, false)

/-- One lifecycle request, with its inputs and its "now" timestamp. -/
inductive Op
  | create (job_type : String) (document_id property_id : Option Nat)
      (initial_data : Option JsonMap) (now : Nat)
  | start (id now : Nat)
  | complete (id : Nat) (result : JsonMap) (now : Nat)
  | fail (id : Nat) (msg : String) (now : Nat)
  | cancel (id : Nat) (coordinatorCancelled : Bool) (now : Nat)
deriving DecidableEq, Repr

/-- Dispatch one request to its operation. -/
def applyOpE (s : ServiceState) : Op → Except JobError ServiceState
  | .create jt d p init now => .ok (create_job s jt d p init now).1
  | .start id now => start_job s id now
  | .complete id r now => complete_job s id r now
  | .fail id m now => fail_job s id m now
  | .cancel id c now => (cancel_job s id c now).map (·.1)

/-- The store after a request: a failed request writes nothing (each
operation checks the state machine before any store mutation). -/
def applyOp (s : ServiceState) (op : Op) : ServiceState :=
  match applyOpE s op with
  | .ok s' => s'
  | .error _ => s

/-- The store after a sequence of lifecycle requests from the fresh
service. -/
def runOps (ops : List Op) : ServiceState := ops.foldl applyOp initState

/-- The status a job has after a sequence of requests. -/
def statusOf (ops : List Op) (id : Nat) : Option JobStatus :=
  (findJob (runOps ops) id).map Job.status

/-- A job has passed through `in_progress` when some prefix of the
request sequence leaves it with that status. -/
def passedInProgress (ops : List Op) (id : Nat) : Prop :=
  ∃ p, p <+: ops ∧ statusOf p id = some JobStatus.in_progress

/-- A request that never writes a non-empty `initial_data` into a fresh
job (true of every non-create request). -/
def createEmptyInit : Op → Bool
  | .create _ _ _ init _ => (init.getD []).isEmpty
  | _ => true

/-- Modelled from the spec: the TrackedTask combinator (section 4.5,
`run_as_job` in the README).  The wrapped task's behaviour on its input
is the `outcome`; `errStr` stringifies a raised error, `valJson` is the
returned value as the recorded result payload.  The combinator creates a
job, starts it, runs the body, then records `complete_job` on normal
return (returning the value) or `fail_job` on a raised error (re-raising
the original error unchanged).  `none` stands for an unreachable
bookkeeping failure (the theorems show the branches are never taken). -/
def run_as_job {Val ε : Type} (job_type : String)
    (document_id property_id : Option Nat)
    (outcome : Except ε Val) (errStr : ε → String) (valJson : Val → JsonMap)
    (s : ServiceState) (t0 t1 t2 : Nat) :
    Option (ServiceState × Except ε Val) :=
  let cj := create_job s job_type document_id property_id none t0
  match start_job cj.1 cj.2.job_id t1 with
  | .error _ => none
  | .ok s2 =>
    match outcome with
    | .ok v =>
      match complete_job s2 cj.2.job_id (valJson v) t2 with
      | .error _ => none
      | .ok s3 => some (s3, .ok v)
    | .error e =>
      match fail_job s2 cj.2.job_id (errStr e) t2 with
      | .error _ => none
      | .ok s3 => some (s3, .error e)

/-- The per-record field discipline of the spec's data model: a scheduled
job has no timestamps and no error; an in-progress job has started but
not finished; a terminal job has finished; done and the non-terminal
statuses carry no error message. -/
def jobWF (j : Job) : Bool :=
  match j.status with
  | .scheduled => j.started_at.isNone && j.finished_at.isNone && j.error_message.isNone
  | .in_progress => j.started_at.isSome && j.finished_at.isNone && j.error_message.isNone
  | .done => j.finished_at.isSome && j.error_message.isNone
  | .failed => j.finished_at.isSome
  | .cancelled => j.finished_at.isSome

/-- The store invariant: every row key is below the fresh-id counter and
every stored record satisfies the field discipline. -/
def stateWF (s : ServiceState) : Prop :=
  (∀ kj ∈ s.jobs, kj.1 < s.next_id)
  ∧ (∀ id j, findJob s id = some j → jobWF j = true)

/-- The result discipline: a stored record has a non-empty result only
when its status is done. -/
def resultEmptyUnlessDone (s : ServiceState) : Prop :=
  ∀ id j, findJob s id = some j → j.result ≠ [] → j.status = JobStatus.done

/-! ## Concrete fixtures the theorems and witnesses evaluate on -/

/-- A freshly created (scheduled) job record, used as a concrete input. -/
def schedJobW : Job :=
  { job_id := 0, job_type := "t", document_id := none, property_id := none,
    status := .scheduled, created_at := 0, started_at := none,
    finished_at := none, result := [], error_message := none }

/-- A finished (done) job record, used as a concrete input. -/
def doneJobW : Job :=
  { job_id := 1, job_type := "t", document_id := none, property_id := none,
    status := .done, created_at := 0, started_at := some 1,
    finished_at := some 2, result := [("pages", 3)], error_message := none }

/-- A running (in_progress) job record, used as a concrete input. -/
def progJobW : Job :=
  { job_id := 2, job_type := "t", document_id := none, property_id := none,
    status := .in_progress, created_at := 0, started_at := some 1,
    finished_at := none, result := [], error_message := none }

/-- A store holding one scheduled, one done and one in-progress job. -/
def stateW : ServiceState := ⟨[(0, schedJobW), (1, doneJobW), (2, progJobW)], 3⟩

/-- A concrete request trace: create, start, complete. -/
def opsW : List Op :=
  [Op.create "t" none none none 0, Op.start 0 1, Op.complete 0 [("pages", 3)] 2]

/-- The job record the trace `opsW` leaves under id 0. -/
def jobW : Job :=
  { job_id := 0, job_type := "t", document_id := none, property_id := none,
    status := .done, created_at := 0, started_at := some 1,
    finished_at := some 2, result := [("pages", 3)], error_message := none }

/-! ## Lemmas about the keyed row list -/

theorem lookupJob_updJobs_self (l : List (Nat × Job)) (id : Nat) (j j' : Job)
    (h : lookupJob l id = some j') : lookupJob (updJobs l id j) id = some j := by
  induction l with
  | nil => simp [lookupJob] at h
  | cons kv rest ih =>
    obtain ⟨k, v⟩ := kv
    by_cases hk : k = id
    · simp [updJobs, lookupJob, hk]
    · simp [updJobs, lookupJob, hk] at h ⊢
      exact ih h

theorem lookupJob_updJobs_ne (l : List (Nat × Job)) (id id' : Nat) (j : Job)
    (h : id' ≠ id) : lookupJob (updJobs l id j) id' = lookupJob l id' := by
  induction l with
  | nil => simp [updJobs]
  | cons kv rest ih =>
    obtain ⟨k, v⟩ := kv
    by_cases hk : k = id
    · subst hk
      simp [updJobs, lookupJob, Ne.symm h, ih]
    · by_cases hk' : k = id' <;> simp [updJobs, lookupJob, hk, hk', h, ih]

/-! ## Theorems for the schema claims -/

/-- C1 (counterexample): the persisted `job_status` enum does not contain
`cancelled`; it has exactly four values, so the claimed five-valued status
(with `cancelled` representable) is false of the schema. -/
theorem C1_counterexample :
    job_status_enum.contains "cancelled" = false ∧ job_status_enum.length = 4 := by
  decide

/-- C1 (amended): the status field of a persisted job record takes exactly
one of the four enum values scheduled, in_progress, done, failed; the
`jobs.status` column is typed by that enum, and `cancelled` is not a
representable value of it. -/
theorem C1_status_enum_four_values :
    job_status_enum = ["scheduled", "in_progress", "done", "failed"]
    ∧ job_status_enum.contains "cancelled" = false
    ∧ (jobs_column "status").map ColumnDef.sqlType = some "job_status" := by
  decide

/-- C8 (counterexample): the `created_at` column of the `jobs` table carries
no NOT NULL constraint, so the claim that it is non-nullable is false of
the persisted schema. -/
theorem C8_counterexample :
    (jobs_column "created_at").map ColumnDef.notNull = some false := by
  decide

/-- C8 (amended): `started_at`, `finished_at` and `error_message` are
nullable; `created_at` is populated at creation by its column default
CURRENT_TIMESTAMP, but the column itself is also nullable (the DDL puts
no NOT NULL constraint on it). -/
theorem C8_created_at_default_nullable :
    (jobs_column "created_at").map (fun c => (c.notNull, c.column_default))
      = some (false, some "CURRENT_TIMESTAMP")
    ∧ (jobs_column "started_at").map ColumnDef.notNull = some false
    ∧ (jobs_column "finished_at").map ColumnDef.notNull = some false
    ∧ (jobs_column "error_message").map ColumnDef.notNull = some false := by
  decide

/-! ## Theorems for the sign-in route -/

/-- C9: the sign-in handler returns the identical response - HTTP 401 with
body error "Invalid email or password" - both when the email matches no
user and when the email matches a user whose password fails the bcrypt
comparison, so the response does not reveal which check failed. -/
theorem C9_signin_uniform_401
    (f₁ f₂ : String → Option AuthUser) (bc : String → String → Bool)
    (jwt : Nat → String → String → String)
    (e₁ p₁ e₂ p₂ : String) (u : AuthUser)
    (h₁ : f₁ e₁ = none)
    (h₂ : f₂ e₂ = some u) (hbc : bc p₂ u.passwordHash = false) :
    signinPOST f₁ bc jwt e₁ p₁ = signinPOST f₂ bc jwt e₂ p₂
    ∧ signinPOST f₁ bc jwt e₁ p₁ = ⟨401, .err "Invalid email or password"⟩ := by
  simp [signinPOST, h₁, h₂, hbc]

/-- Witness for C9 at a concrete store: one database with no user for the
email, one with a user whose password check fails. -/
theorem C9_signin_uniform_401_witness :
    signinPOST (fun _ => none) (fun _ _ => false) (fun _ _ _ => "tok") "a@b.c" "pw"
      = signinPOST (fun _ => some ⟨0, "a@b.c", "A", none, "hash"⟩)
          (fun _ _ => false) (fun _ _ _ => "tok") "a@b.c" "pw"
    ∧ signinPOST (fun _ => none) (fun _ _ => false) (fun _ _ _ => "tok") "a@b.c" "pw"
      = ⟨401, .err "Invalid email or password"⟩ :=
  C9_signin_uniform_401 (fun _ => none) (fun _ => some ⟨0, "a@b.c", "A", none, "hash"⟩)
    (fun _ _ => false) (fun _ _ _ => "tok") "a@b.c" "pw" "a@b.c" "pw"
    ⟨0, "a@b.c", "A", none, "hash"⟩ rfl rfl rfl

/-! ## Theorems for the upload guard -/

/-- C10: `handleFileUpload` issues no upload request when there is no file,
and for a selected file it calls `uploadFile` exactly when the MIME type
includes "pdf" and the size is at most 50 * 1024 * 1024 bytes; otherwise
it returns early with no request. -/
theorem C10_upload_guard (file : BrowserFile) (rest : List BrowserFile) :
    handleFileUpload none = none
    ∧ handleFileUpload (some []) = none
    ∧ handleFileUpload (some (file :: rest)) =
        (if jsIncludes file.ftype "pdf" && !(file.size > 50 * 1024 * 1024)
         then some file else none) := by
  refine ⟨rfl, rfl, ?_⟩
  by_cases h1 : jsIncludes file.ftype "pdf" <;>
    by_cases h2 : file.size > 50 * 1024 * 1024 <;>
      simp [handleFileUpload, h1, h2]

/-! ## Theorems for the lifecycle claims -/

/-- C4: for all inputs, the job returned by `create_job` has status
scheduled, `started_at` null and `finished_at` null, and is the record
the store then holds under its fresh id. -/
theorem C4_create_job_initial (s : ServiceState) (jt : String)
    (d p : Option Nat) (init : Option JsonMap) (now : Nat) :
    (create_job s jt d p init now).2.status = JobStatus.scheduled
    ∧ (create_job s jt d p init now).2.started_at = none
    ∧ (create_job s jt d p init now).2.finished_at = none
    ∧ findJob (create_job s jt d p init now).1 (create_job s jt d p init now).2.job_id
        = some (create_job s jt d p init now).2 := by
  simp [create_job, findJob, lookupJob]

/-- C7: creating a job with `job_type` t and `initial_data` d and then
reading it back under the returned `job_id` yields a job whose
`job_type` equals t and whose `result` equals d. -/
theorem C7_create_get_round_trip (s : ServiceState) (t : String) (d : JsonMap)
    (dd pp : Option Nat) (now : Nat) :
    findJob (create_job s t dd pp (some d) now).1
        (create_job s t dd pp (some d) now).2.job_id
      = some (create_job s t dd pp (some d) now).2
    ∧ (create_job s t dd pp (some d) now).2.job_type = t
    ∧ (create_job s t dd pp (some d) now).2.result = d := by
  simp [create_job, findJob, lookupJob]

/-- C5: when `cancel_job` returns false (the coordinator could not cancel,
e.g. the work already finished) the store is left exactly as it was; when
it returns true the job is additionally transitioned to cancelled with
the standard message. -/
theorem C5_cancel_job_frame (s : ServiceState) (id now : Nat) :
    cancel_job s id false now = Except.ok (s, false)
    ∧ (∀ s' b, cancel_job s id true now = Except.ok (s', b) →
        b = true ∧ ∃ j, findJob s id = some j
          ∧ findJob s' id = some { j with
              status := JobStatus.cancelled, finished_at := some now,
              error_message := some standardCancelMessage }) := by
  constructor
  · simp [cancel_job]
  · intro s' b h
    cases hj : findJob s id with
    | none => simp [cancel_job, hj] at h
    | some j =>
      by_cases hc : canTransition j.status JobStatus.cancelled
      · simp [cancel_job, hj, hc] at h
        obtain ⟨h1, h2⟩ := h
        refine ⟨h2, j, rfl, ?_⟩
        rw [← h1]
        exact lookupJob_updJobs_self s.jobs id _ j hj
      · simp [cancel_job, hj, hc] at h

/-- C3: every transition request not permitted by the state machine fails
with `InvalidTransitionError`: each operation errors whenever the state
machine forbids the transition it asks for (in particular completing a
job still scheduled, starting a job already in progress, and starting,
completing, failing or cancelling an already-terminal job), and a request
whose check fails writes nothing: the store is unchanged. -/
theorem C3_invalid_transition_rejected (s : ServiceState) (id now : Nat)
    (r : JsonMap) (j : Job) (hj : findJob s id = some j) :
    (canTransition j.status JobStatus.in_progress = false →
        start_job s id now = Except.error JobError.InvalidTransitionError)
    ∧ (canTransition j.status JobStatus.done = false →
        complete_job s id r now = Except.error JobError.InvalidTransitionError)
    ∧ (∀ msg, canTransition j.status JobStatus.failed = false →
        fail_job s id msg now = Except.error JobError.InvalidTransitionError)
    ∧ (canTransition j.status JobStatus.cancelled = false →
        cancel_job s id true now = Except.error JobError.InvalidTransitionError)
    ∧ (j.status = JobStatus.scheduled →
        complete_job s id r now = Except.error JobError.InvalidTransitionError)
    ∧ (j.status = JobStatus.in_progress →
        start_job s id now = Except.error JobError.InvalidTransitionError)
    ∧ (isTerminal j.status = true →
        start_job s id now = Except.error JobError.InvalidTransitionError
        ∧ complete_job s id r now = Except.error JobError.InvalidTransitionError
        ∧ (∀ msg, fail_job s id msg now = Except.error JobError.InvalidTransitionError)
        ∧ cancel_job s id true now = Except.error JobError.InvalidTransitionError)
    ∧ (∀ op e, applyOpE s op = Except.error e → applyOp s op = s) := by
  refine ⟨?_, ?_, ?_, ?_, ?_, ?_, ?_, ?_⟩
  · intro hc
    simp [start_job, hj, hc]
  · intro hc
    simp [complete_job, hj, hc]
  · intro msg hc
    simp [fail_job, hj, hc]
  · intro hc
    simp [cancel_job, hj, hc]
  · intro hst
    simp [complete_job, hj, hst, canTransition]
  · intro hst
    simp [start_job, hj, hst, canTransition]
  · intro ht
    refine ⟨?_, ?_, ?_, ?_⟩ <;>
      cases hs : j.status <;> simp [hs, isTerminal] at ht <;>
        simp [start_job, complete_job, fail_job, cancel_job, hj, hs, canTransition]
  · intro op e h
    simp [applyOp, h]

/-- Witness for C3 at a concrete store: a scheduled job (id 0), a done
job (id 1) and an in-progress job (id 2). -/
theorem C3_invalid_transition_rejected_witness :
    ((canTransition schedJobW.status JobStatus.in_progress = false →
        start_job stateW 0 7 = Except.error JobError.InvalidTransitionError)
     ∧ (canTransition schedJobW.status JobStatus.done = false →
        complete_job stateW 0 [] 7 = Except.error JobError.InvalidTransitionError)
     ∧ (∀ msg, canTransition schedJobW.status JobStatus.failed = false →
        fail_job stateW 0 msg 7 = Except.error JobError.InvalidTransitionError)
     ∧ (canTransition schedJobW.status JobStatus.cancelled = false →
        cancel_job stateW 0 true 7 = Except.error JobError.InvalidTransitionError)
     ∧ (schedJobW.status = JobStatus.scheduled →
        complete_job stateW 0 [] 7 = Except.error JobError.InvalidTransitionError)
     ∧ (schedJobW.status = JobStatus.in_progress →
        start_job stateW 0 7 = Except.error JobError.InvalidTransitionError)
     ∧ (isTerminal schedJobW.status = true →
        start_job stateW 0 7 = Except.error JobError.InvalidTransitionError
        ∧ complete_job stateW 0 [] 7 = Except.error JobError.InvalidTransitionError
        ∧ (∀ msg, fail_job stateW 0 msg 7 = Except.error JobError.InvalidTransitionError)
        ∧ cancel_job stateW 0 true 7 = Except.error JobError.InvalidTransitionError)
     ∧ (∀ op e, applyOpE stateW op = Except.error e → applyOp stateW op = stateW))
    ∧ ((canTransition doneJobW.status JobStatus.in_progress = false →
        start_job stateW 1 7 = Except.error JobError.InvalidTransitionError)
     ∧ (canTransition doneJobW.status JobStatus.done = false →
        complete_job stateW 1 [] 7 = Except.error JobError.InvalidTransitionError)
     ∧ (∀ msg, canTransition doneJobW.status JobStatus.failed = false →
        fail_job stateW 1 msg 7 = Except.error JobError.InvalidTransitionError)
     ∧ (canTransition doneJobW.status JobStatus.cancelled = false →
        cancel_job stateW 1 true 7 = Except.error JobError.InvalidTransitionError)
     ∧ (doneJobW.status = JobStatus.scheduled →
        complete_job stateW 1 [] 7 = Except.error JobError.InvalidTransitionError)
     ∧ (doneJobW.status = JobStatus.in_progress →
        start_job stateW 1 7 = Except.error JobError.InvalidTransitionError)
     ∧ (isTerminal doneJobW.status = true →
        start_job stateW 1 7 = Except.error JobError.InvalidTransitionError
        ∧ complete_job stateW 1 [] 7 = Except.error JobError.InvalidTransitionError
        ∧ (∀ msg, fail_job stateW 1 msg 7 = Except.error JobError.InvalidTransitionError)
        ∧ cancel_job stateW 1 true 7 = Except.error JobError.InvalidTransitionError)
     ∧ (∀ op e, applyOpE stateW op = Except.error e → applyOp stateW op = stateW))
    ∧ ((canTransition progJobW.status JobStatus.in_progress = false →
        start_job stateW 2 7 = Except.error JobError.InvalidTransitionError)
     ∧ (canTransition progJobW.status JobStatus.done = false →
        complete_job stateW 2 [] 7 = Except.error JobError.InvalidTransitionError)
     ∧ (∀ msg, canTransition progJobW.status JobStatus.failed = false →
        fail_job stateW 2 msg 7 = Except.error JobError.InvalidTransitionError)
     ∧ (canTransition progJobW.status JobStatus.cancelled = false →
        cancel_job stateW 2 true 7 = Except.error JobError.InvalidTransitionError)
     ∧ (progJobW.status = JobStatus.scheduled →
        complete_job stateW 2 [] 7 = Except.error JobError.InvalidTransitionError)
     ∧ (progJobW.status = JobStatus.in_progress →
        start_job stateW 2 7 = Except.error JobError.InvalidTransitionError)
     ∧ (isTerminal progJobW.status = true →
        start_job stateW 2 7 = Except.error JobError.InvalidTransitionError
        ∧ complete_job stateW 2 [] 7 = Except.error JobError.InvalidTransitionError
        ∧ (∀ msg, fail_job stateW 2 msg 7 = Except.error JobError.InvalidTransitionError)
        ∧ cancel_job stateW 2 true 7 = Except.error JobError.InvalidTransitionError)
     ∧ (∀ op e, applyOpE stateW op = Except.error e → applyOp stateW op = stateW)) :=
  ⟨C3_invalid_transition_rejected stateW 0 7 [] schedJobW rfl,
   C3_invalid_transition_rejected stateW 1 7 [] doneJobW rfl,
   C3_invalid_transition_rejected stateW 2 7 [] progJobW rfl⟩

/-- C6: the TrackedTask combinator returns the wrapped function's value
after recording `complete_job` with it, and re-raises the wrapped
function's error unchanged after recording `fail_job` with its
stringification; errors are never swallowed and the bookkeeping never
fails. -/
theorem C6_run_as_job_records_and_propagates (Val ε : Type) (jt : String)
    (d p : Option Nat) (errStr : ε → String) (valJson : Val → JsonMap)
    (s : ServiceState) (t0 t1 t2 : Nat) (v : Val) (e : ε) :
    (∃ s', run_as_job jt d p (Except.ok v) errStr valJson s t0 t1 t2
        = some (s', Except.ok v)
      ∧ findJob s' s.next_id = some
          { job_id := s.next_id, job_type := jt, document_id := d,
            property_id := p, status := JobStatus.done, created_at := t0,
            started_at := some t1, finished_at := some t2,
            result := valJson v, error_message := none })
    ∧ (∃ s', run_as_job jt d p (Except.error e) errStr valJson s t0 t1 t2
        = some (s', Except.error e)
      ∧ findJob s' s.next_id = some
          { job_id := s.next_id, job_type := jt, document_id := d,
            property_id := p, status := JobStatus.failed, created_at := t0,
            started_at := some t1, finished_at := some t2,
            result := [], error_message := some (errStr e) }) := by
  constructor <;>
    simp [run_as_job, create_job, start_job, complete_job, fail_job,
          findJob, lookupJob, putJob, updJobs, canTransition]

/-- C2 (counterexample): a job created with a non-empty `initial_data` is
still scheduled yet already has a non-empty `result`, so "result is
non-empty only when the status is done" fails on the lifecycle as
specified (create writes initial_data into result). -/
theorem C2_counterexample :
    (findJob (runOps [Op.create "ocr" none none (some [("pages", 0)]) 0]) 0).map
        (fun j => (j.status, j.result))
      = some (JobStatus.scheduled, [("pages", 0)]) := by
  rfl

/-! ## Step lemmas towards the lifecycle invariants (claim C2) -/

theorem lookupJob_mem (l : List (Nat × Job)) (id : Nat) (j : Job)
    (h : lookupJob l id = some j) : (id, j) ∈ l := by
  induction l with
  | nil => simp [lookupJob] at h
  | cons kv rest ih =>
    obtain ⟨k, v⟩ := kv
    by_cases hk : k = id
    · subst hk
      simp [lookupJob] at h
      subst h
      exact List.mem_cons_self _ _
    · simp [lookupJob, hk] at h
      exact List.mem_cons_of_mem _ (ih h)

theorem updJobs_map_fst (l : List (Nat × Job)) (id : Nat) (j : Job) :
    (updJobs l id j).map Prod.fst = l.map Prod.fst := by
  induction l with
  | nil => simp [updJobs]
  | cons kv rest ih =>
    obtain ⟨k, v⟩ := kv
    by_cases hk : k = id <;> simp [updJobs, hk, ih]

theorem canTransition_not_terminal (st st' : JobStatus)
    (h : canTransition st st' = true) : isTerminal st = false := by
  cases st <;> cases st' <;> simp_all [canTransition, isTerminal]

theorem findJob_lt_next (s : ServiceState) (id : Nat) (j : Job)
    (hWF : stateWF s) (hj : findJob s id = some j) : id < s.next_id :=
  hWF.1 (id, j) (lookupJob_mem s.jobs id j hj)

theorem stateWF_putJob (s : ServiceState) (id : Nat) (j j' : Job)
    (hWF : stateWF s) (hj : findJob s id = some j) (hj' : jobWF j' = true) :
    stateWF (putJob s id j') := by
  obtain ⟨hkeys, hrec⟩ := hWF
  constructor
  · intro kj hkj
    have h1 : kj.1 ∈ (updJobs s.jobs id j').map Prod.fst := List.mem_map_of_mem _ hkj
    rw [updJobs_map_fst] at h1
    obtain ⟨kv, hkv, hEq⟩ := List.mem_map.mp h1
    exact hEq ▸ hkeys kv hkv
  · intro id' j'' h
    by_cases hid : id' = id
    · subst hid
      simp only [findJob, putJob] at h
      rw [lookupJob_updJobs_self s.jobs id' j' j hj] at h
      cases h
      exact hj'
    · simp only [findJob, putJob] at h
      rw [lookupJob_updJobs_ne s.jobs id id' j' hid] at h
      exact hrec id' j'' h

theorem stateWF_initState : stateWF initState := by
  constructor
  · intro kj hkj
    simp [initState] at hkj
  · intro id j h
    simp [initState, findJob, lookupJob] at h

/-- Every request either writes nothing, inserts one fresh scheduled row,
or rewrites one existing row along a permitted transition. -/
theorem applyOp_shape (s : ServiceState) (op : Op) :
    applyOp s op = s
    ∨ (∃ j', j'.status = JobStatus.scheduled ∧ j'.started_at = none
        ∧ j'.finished_at = none ∧ j'.error_message = none
        ∧ (createEmptyInit op = true → j'.result = [])
        ∧ applyOp s op = ⟨(s.next_id, j') :: s.jobs, s.next_id + 1⟩)
    ∨ (∃ id j₀ j', findJob s id = some j₀
        ∧ applyOp s op = putJob s id j'
        ∧ canTransition j₀.status j'.status = true
        ∧ (jobWF j₀ = true → jobWF j' = true)
        ∧ (j'.started_at = j₀.started_at
            ∨ (j'.status = JobStatus.in_progress ∧ j'.started_at.isSome = true))
        ∧ (j'.result = j₀.result ∨ j'.status = JobStatus.done)) := by
  cases op with
  | create jt dd pp init now =>
    refine Or.inr (Or.inl ⟨(create_job s jt dd pp init now).2, rfl, rfl, rfl, rfl, ?_, ?_⟩)
    · intro h
      cases hinit : init.getD [] with
      | nil => simp [create_job, hinit]
      | cons a t =>
        rw [show createEmptyInit (Op.create jt dd pp init now) = (init.getD []).isEmpty
              from rfl, hinit] at h
        simp at h
    · simp [applyOp, applyOpE, create_job]
  | start id now =>
    cases hj : findJob s id with
    | none => exact Or.inl (by simp [applyOp, applyOpE, start_job, hj])
    | some j₀ =>
      by_cases hc : canTransition j₀.status JobStatus.in_progress
      · have hsched : j₀.status = JobStatus.scheduled := by
          cases h0 : j₀.status <;> simp_all [canTransition]
        refine Or.inr (Or.inr ⟨id, j₀,
          { j₀ with status := JobStatus.in_progress, started_at := some now },
          hj, ?_, ?_, ?_, ?_, ?_⟩)
        · simp [applyOp, applyOpE, start_job, hj, hc]
        · simpa using hc
        · intro hwf
          rw [jobWF, hsched] at hwf
          simp at hwf
          obtain ⟨⟨h1, h2⟩, h3⟩ := hwf
          simp [jobWF, h2, h3]
        · exact Or.inr ⟨rfl, rfl⟩
        · exact Or.inl rfl
      · exact Or.inl (by simp [applyOp, applyOpE, start_job, hj, hc])
  | complete id r now =>
    cases hj : findJob s id with
    | none => exact Or.inl (by simp [applyOp, applyOpE, complete_job, hj])
    | some j₀ =>
      by_cases hc : canTransition j₀.status JobStatus.done
      · have hprog : j₀.status = JobStatus.in_progress := by
          cases h0 : j₀.status <;> simp_all [canTransition]
        refine Or.inr (Or.inr ⟨id, j₀,
          { j₀ with status := JobStatus.done, finished_at := some now, result := r },
          hj, ?_, ?_, ?_, ?_, ?_⟩)
        · simp [applyOp, applyOpE, complete_job, hj, hc]
        · simpa using hc
        · intro hwf
          rw [jobWF, hprog] at hwf
          simp at hwf
          obtain ⟨⟨h1, h2⟩, h3⟩ := hwf
          simp [jobWF, h3]
        · exact Or.inl rfl
        · exact Or.inr rfl
      · exact Or.inl (by simp [applyOp, applyOpE, complete_job, hj, hc])
  | fail id msg now =>
    cases hj : findJob s id with
    | none => exact Or.inl (by simp [applyOp, applyOpE, fail_job, hj])
    | some j₀ =>
      by_cases hc : canTransition j₀.status JobStatus.failed
      · refine Or.inr (Or.inr ⟨id, j₀,
          { j₀ with status := JobStatus.failed, finished_at := some now,
                    error_message := some msg },
          hj, ?_, ?_, ?_, ?_, ?_⟩)
        · simp [applyOp, applyOpE, fail_job, hj, hc]
        · simpa using hc
        · intro _
          simp [jobWF]
        · exact Or.inl rfl
        · exact Or.inl rfl
      · exact Or.inl (by simp [applyOp, applyOpE, fail_job, hj, hc])
  | cancel id c now =>
    cases c with
    | false => exact Or.inl (by simp [applyOp, applyOpE, cancel_job, Except.map])
    | true =>
      cases hj : findJob s id with
      | none => exact Or.inl (by simp [applyOp, applyOpE, cancel_job, Except.map, hj])
      | some j₀ =>
        by_cases hc : canTransition j₀.status JobStatus.cancelled
        · refine Or.inr (Or.inr ⟨id, j₀,
            { j₀ with status := JobStatus.cancelled, finished_at := some now,
                      error_message := some standardCancelMessage },
            hj, ?_, ?_, ?_, ?_, ?_⟩)
          · simp [applyOp, applyOpE, cancel_job, Except.map, hj, hc]
          · simpa using hc
          · intro _
            simp [jobWF]
          · exact Or.inl rfl
          · exact Or.inl rfl
        · exact Or.inl (by simp [applyOp, applyOpE, cancel_job, Except.map, hj, hc])

theorem stateWF_applyOp (s : ServiceState) (op : Op) (hWF : stateWF s) :
    stateWF (applyOp s op) := by
  rcases applyOp_shape s op with heq |
      ⟨j', hst, hsa, hfin, herr, _, heq⟩ |
      ⟨id, j₀, j', hj, heq, hc, hwf, _, _⟩
  · rwa [heq]
  · rw [heq]
    constructor
    · intro kj hkj
      rcases List.mem_cons.mp hkj with rfl | hm
      · simp
      · exact Nat.lt_succ_of_lt (hWF.1 kj hm)
    · intro id j h'
      simp only [findJob] at h'
      by_cases hid : s.next_id = id
      · simp only [lookupJob, if_pos hid] at h'
        cases h'
        simp [jobWF, hst, hsa, hfin, herr]
      · simp only [lookupJob, if_neg hid] at h'
        exact hWF.2 id j h'
  · rw [heq]
    exact stateWF_putJob s id j₀ j' hWF hj (hwf (hWF.2 id j₀ hj))

theorem resultInv_applyOp (s : ServiceState) (op : Op)
    (hop : createEmptyInit op = true) (hres : resultEmptyUnlessDone s) :
    resultEmptyUnlessDone (applyOp s op) := by
  rcases applyOp_shape s op with heq |
      ⟨j', _, _, _, _, hre, heq⟩ |
      ⟨id, j₀, j', hj, heq, hc, _, _, hre⟩
  · rwa [heq]
  · rw [heq]
    intro id j hfind hne
    simp only [findJob] at hfind
    by_cases hid : s.next_id = id
    · simp only [lookupJob, if_pos hid] at hfind
      cases hfind
      exact absurd (hre hop) hne
    · simp only [lookupJob, if_neg hid] at hfind
      exact hres id j hfind hne
  · rw [heq]
    intro id' j'' hfind hne
    by_cases hid : id' = id
    · subst hid
      simp only [findJob, putJob] at hfind
      rw [lookupJob_updJobs_self s.jobs id' j' j₀ hj] at hfind
      cases hfind
      rcases hre with hre | hre
      · have hd := hres id' j₀ hj (by rwa [hre] at hne)
        rw [hd] at hc
        simp [canTransition] at hc
      · exact hre
    · simp only [findJob, putJob] at hfind
      rw [lookupJob_updJobs_ne s.jobs id id' j' hid] at hfind
      exact hres id' j'' hfind hne

theorem terminal_frozen_applyOp (s : ServiceState) (op : Op) (id : Nat) (j : Job)
    (hWF : stateWF s) (hj : findJob s id = some j) (ht : isTerminal j.status = true) :
    findJob (applyOp s op) id = some j := by
  rcases applyOp_shape s op with heq |
      ⟨j', _, _, _, _, _, heq⟩ |
      ⟨id₀, j₀, j', hj₀, heq, hc, _, _, _⟩
  · rwa [heq]
  · rw [heq]
    have hlt : id < s.next_id := findJob_lt_next s id j hWF hj
    simp only [findJob, lookupJob]
    rw [if_neg (by omega)]
    exact hj
  · rw [heq]
    by_cases hid : id = id₀
    · subst hid
      rw [hj] at hj₀
      cases hj₀
      have hnt := canTransition_not_terminal _ _ hc
      rw [ht] at hnt
      cases hnt
    · simp only [findJob, putJob]
      rw [lookupJob_updJobs_ne s.jobs id₀ id j' hid]
      exact hj

theorem started_mono_applyOp (s : ServiceState) (op : Op) (id : Nat) (j : Job)
    (hWF : stateWF s) (hj : findJob s id = some j) (hs : j.started_at.isSome = true) :
    ∃ j₂, findJob (applyOp s op) id = some j₂ ∧ j₂.started_at.isSome = true := by
  rcases applyOp_shape s op with heq |
      ⟨j', _, _, _, _, _, heq⟩ |
      ⟨id₀, j₀, j', hj₀, heq, _, _, hsta, _⟩
  · exact ⟨j, by rw [heq]; exact hj, hs⟩
  · have hlt : id < s.next_id := findJob_lt_next s id j hWF hj
    refine ⟨j, ?_, hs⟩
    rw [heq]
    simp only [findJob, lookupJob]
    rw [if_neg (by omega)]
    exact hj
  · by_cases hid : id = id₀
    · subst hid
      rw [hj] at hj₀
      cases hj₀
      refine ⟨j', ?_, ?_⟩
      · rw [heq]
        simp only [findJob, putJob]
        exact lookupJob_updJobs_self s.jobs id j' j hj
      · rcases hsta with hh | hh
        · rw [hh]
          exact hs
        · exact hh.2
    · refine ⟨j, ?_, hs⟩
      rw [heq]
      simp only [findJob, putJob]
      rw [lookupJob_updJobs_ne s.jobs id₀ id j' hid]
      exact hj

theorem started_new_applyOp (s : ServiceState) (op : Op) (id : Nat) (j₂ : Job)
    (hj₂ : findJob (applyOp s op) id = some j₂) (hs : j₂.started_at.isSome = true) :
    (∃ j₁, findJob s id = some j₁ ∧ j₁.started_at.isSome = true)
    ∨ j₂.status = JobStatus.in_progress := by
  rcases applyOp_shape s op with heq |
      ⟨j', _, hsa, _, _, _, heq⟩ |
      ⟨id₀, j₀, j', hj₀, heq, _, _, hsta, _⟩
  · left
    exact ⟨j₂, heq ▸ hj₂, hs⟩
  · rw [heq] at hj₂
    simp only [findJob] at hj₂
    by_cases hid : s.next_id = id
    · simp only [lookupJob, if_pos hid] at hj₂
      cases hj₂
      rw [hsa] at hs
      cases hs
    · simp only [lookupJob, if_neg hid] at hj₂
      left
      exact ⟨j₂, hj₂, hs⟩
  · by_cases hid : id = id₀
    · subst hid
      rw [heq] at hj₂
      simp only [findJob, putJob] at hj₂
      rw [lookupJob_updJobs_self s.jobs id j' j₀ hj₀] at hj₂
      cases hj₂
      rcases hsta with hh | hh
      · left
        refine ⟨j₀, hj₀, ?_⟩
        rw [← hh]
        exact hs
      · right
        exact hh.1
    · left
      rw [heq] at hj₂
      simp only [findJob, putJob] at hj₂
      rw [lookupJob_updJobs_ne s.jobs id₀ id j' hid] at hj₂
      exact ⟨j₂, hj₂, hs⟩

theorem stateWF_foldl (t : List Op) : ∀ s, stateWF s → stateWF (t.foldl applyOp s) := by
  induction t with
  | nil => intro s h; exact h
  | cons op t ih => intro s h; exact ih _ (stateWF_applyOp s op h)

theorem stateWF_runOps (ops : List Op) : stateWF (runOps ops) :=
  stateWF_foldl ops initState stateWF_initState

theorem resultInv_foldl (t : List Op) : ∀ s, (∀ op ∈ t, createEmptyInit op = true) →
    resultEmptyUnlessDone s → resultEmptyUnlessDone (t.foldl applyOp s) := by
  induction t with
  | nil => intro s _ h; exact h
  | cons op t ih =>
    intro s hall h
    exact ih _ (fun o ho => hall o (List.mem_cons_of_mem _ ho))
      (resultInv_applyOp s op (hall op (List.mem_cons_self _ _)) h)

theorem terminal_frozen_foldl (t : List Op) : ∀ s id j, stateWF s →
    findJob s id = some j → isTerminal j.status = true →
    findJob (t.foldl applyOp s) id = some j := by
  induction t with
  | nil => intro s id j _ hj _; exact hj
  | cons op t ih =>
    intro s id j hWF hj ht
    exact ih _ id j (stateWF_applyOp s op hWF) (terminal_frozen_applyOp s op id j hWF hj ht) ht

theorem started_mono_foldl (t : List Op) : ∀ s id j, stateWF s →
    findJob s id = some j → j.started_at.isSome = true →
    ∃ j₂, findJob (t.foldl applyOp s) id = some j₂ ∧ j₂.started_at.isSome = true := by
  induction t with
  | nil => intro s id j _ hj hs; exact ⟨j, hj, hs⟩
  | cons op t ih =>
    intro s id j hWF hj hs
    obtain ⟨j₁, hj₁, hs₁⟩ := started_mono_applyOp s op id j hWF hj hs
    exact ih _ id j₁ (stateWF_applyOp s op hWF) hj₁ hs₁

theorem runOps_append (p t : List Op) : runOps (p ++ t) = t.foldl applyOp (runOps p) := by
  simp [runOps, List.foldl_append]

theorem runOps_snoc (xs : List Op) (x : Op) : runOps (xs ++ [x]) = applyOp (runOps xs) x := by
  simp [runOps, List.foldl_append]

theorem prefix_snoc_iff {α : Type} {p xs : List α} {x : α} :
    p <+: xs ++ [x] ↔ p <+: xs ∨ p = xs ++ [x] := by
  constructor
  · intro h
    by_cases hl : p.length ≤ xs.length
    · exact Or.inl (List.prefix_of_prefix_length_le h (List.prefix_append xs [x]) hl)
    · right
      have h1 := h.length_le
      have h2 : p.length = (xs ++ [x]).length := by
        simp only [List.length_append, List.length_cons, List.length_nil] at h1 ⊢
        omega
      exact h.eq_of_length h2
  · rintro (h | rfl)
    · exact h.trans (List.prefix_append xs [x])
    · exact List.prefix_rfl

theorem jobWF_finished_iff (j : Job) (h : jobWF j = true) :
    (j.finished_at.isSome = true ↔ isTerminal j.status = true) := by
  cases hst : j.status <;> rw [jobWF, hst] at h <;> simp at h <;>
    simp_all [isTerminal]

theorem jobWF_error (j : Job) (h : jobWF j = true) (he : j.error_message.isSome = true) :
    j.status = JobStatus.failed ∨ j.status = JobStatus.cancelled := by
  cases hst : j.status <;> rw [jobWF, hst] at h <;> simp at h <;>
    simp_all

theorem jobWF_in_progress_started (j : Job) (h : jobWF j = true)
    (hst : j.status = JobStatus.in_progress) : j.started_at.isSome = true := by
  rw [jobWF, hst] at h
  simp at h
  exact h.1.1

theorem started_iff_passed (ops : List Op) (id : Nat) : ∀ j,
    findJob (runOps ops) id = some j →
    (j.started_at.isSome = true ↔ passedInProgress ops id) := by
  induction ops using List.reverseRecOn with
  | nil =>
    intro j hj
    simp [runOps, initState, findJob, lookupJob] at hj
  | append_singleton xs x ih =>
    intro j hj
    rw [runOps_snoc] at hj
    constructor
    · intro hs
      rcases started_new_applyOp (runOps xs) x id j hj hs with ⟨j₁, hj₁, hs₁⟩ | hprog
      · obtain ⟨p, hp, hst⟩ := (ih j₁ hj₁).mp hs₁
        exact ⟨p, hp.trans (List.prefix_append xs [x]), hst⟩
      · refine ⟨xs ++ [x], List.prefix_rfl, ?_⟩
        simp [statusOf, runOps_snoc, hj, hprog]
    · rintro ⟨p, hp, hst⟩
      rcases prefix_snoc_iff.mp hp with hp' | rfl
      · obtain ⟨t, rfl⟩ := hp'
        simp only [statusOf] at hst
        obtain ⟨jp, hjp, hstp⟩ : ∃ jp, findJob (runOps p) id = some jp
            ∧ jp.status = JobStatus.in_progress := by
          cases hfind : findJob (runOps p) id with
          | none => rw [hfind] at hst; cases hst
          | some jp =>
            rw [hfind] at hst
            simp at hst
            exact ⟨jp, rfl, hst⟩
        have hsp : jp.started_at.isSome = true :=
          jobWF_in_progress_started jp ((stateWF_runOps p).2 id jp hjp) hstp
        obtain ⟨j₂, hj₂, hs₂⟩ :=
          started_mono_foldl (t ++ [x]) (runOps p) id jp (stateWF_runOps p) hjp hsp
        rw [← runOps_append p (t ++ [x]), ← List.append_assoc, runOps_snoc] at hj₂
        rw [hj] at hj₂
        cases hj₂
        exact hs₂
      · simp only [statusOf, runOps_snoc] at hst
        rw [hj] at hst
        simp at hst
        have hwf := (stateWF_applyOp (runOps xs) x (stateWF_runOps xs)).2 id j hj
        exact jobWF_in_progress_started j hwf hst

/-- C2 (amended): over every sequence of lifecycle requests, started_at is
non-null iff the job's status has passed through in_progress; finished_at
is non-null iff the status is terminal; a job observed terminal after any
prefix of the sequence is never modified again; error_message is non-null
only when the status is failed or cancelled; and - amended - result is
non-empty only when the status is done provided every create supplied an
empty initial_data (create_job writes the supplied initial_data into
result, so a non-empty initial payload is already visible while the job
is still scheduled). -/
theorem C2_lifecycle_invariants (ops : List Op) (id : Nat) (j : Job)
    (hj : findJob (runOps ops) id = some j) :
    (j.started_at.isSome = true ↔ passedInProgress ops id)
    ∧ (j.finished_at.isSome = true ↔ isTerminal j.status = true)
    ∧ (∀ p j', p <+: ops → findJob (runOps p) id = some j' →
        isTerminal j'.status = true → j = j')
    ∧ ((∀ op ∈ ops, createEmptyInit op = true) →
        j.result ≠ [] → j.status = JobStatus.done)
    ∧ (j.error_message.isSome = true →
        j.status = JobStatus.failed ∨ j.status = JobStatus.cancelled) := by
  have hWF := stateWF_runOps ops
  have hwf := hWF.2 id j hj
  refine ⟨started_iff_passed ops id j hj, jobWF_finished_iff j hwf, ?_, ?_,
    jobWF_error j hwf⟩
  · intro p j' hp hjp ht
    obtain ⟨t, rfl⟩ := hp
    have hfr := terminal_frozen_foldl t (runOps p) id j' (stateWF_runOps p) hjp ht
    rw [← runOps_append] at hfr
    rw [hj] at hfr
    exact Option.some.inj hfr
  · intro hall hne
    have hinit : resultEmptyUnlessDone initState := by
      intro id' j' h
      simp [initState, findJob, lookupJob] at h
    exact resultInv_foldl ops initState hall hinit id j hj hne

/-- Witness for C2 at the concrete trace create, start, complete. -/
theorem C2_lifecycle_invariants_witness :
    (jobW.started_at.isSome = true ↔ passedInProgress opsW 0)
    ∧ (jobW.finished_at.isSome = true ↔ isTerminal jobW.status = true)
    ∧ (∀ p j', p <+: opsW → findJob (runOps p) 0 = some j' →
        isTerminal j'.status = true → jobW = j')
    ∧ ((∀ op ∈ opsW, createEmptyInit op = true) →
        jobW.result ≠ [] → jobW.status = JobStatus.done)
    ∧ (jobW.error_message.isSome = true →
        jobW.status = JobStatus.failed ∨ jobW.status = JobStatus.cancelled) :=
  C2_lifecycle_invariants opsW 0 jobW (by decide)
